import Mathlib

/-!
Verification development for the `sublime-music` cache manager
(`src/sublime/cache_manager.py`).  Python code is shallowly embedded:
pure fragments become Lean functions, Python `None` becomes `Option.none`,
raised exceptions become `Except.error`, and the concurrent download
deduplication protocol becomes an explicit interleaving transition system.
-/

namespace Sublime

/-! ### SearchResult ranking (`SearchResult._to_result`) -/

/-- The accumulation loop of `SearchResult._to_result`: walk the
score-sorted `(ratio, x)` list, appending `x` while its ratio is above 60
and fewer than 20 items have been kept, and `break` at the first pair that
fails either test.  `k` is `len(result)`, the number of items already kept. -/
def to_result_loop {α : Type} : List (Nat × α) → Nat → List α
  | [], _ => []
  | (r, x) :: rest, k =>
    if 60 < r ∧ k < 20 then x :: to_result_loop rest (k + 1) else []

/-- Python's `sorted(pairs, key=lambda rx: rx[0], reverse=True)`: sort the
scored candidates descending by score. -/
def sortByScoreDesc {α : Type} (l : List (Nat × α)) : List (Nat × α) :=
  l.mergeSort (fun a b => Nat.ble b.1 a.1)

/-- The generator `(similarity_ratio(query, transform(x)), x) for x in it`
inside `_to_result`; the similarity function (`fuzzywuzzy`, external to the
repository) is a parameter `score`. -/
def scored_pairs {α : Type} (score : String → String → Nat) (query : String)
    (it : List α) (transform : α → String) : List (Nat × α) :=
  it.map (fun x => (score query (transform x), x))

/-- `SearchResult._to_result`: score every candidate against the query, sort
descending by score, then keep the qualifying head segment. -/
def to_result {α : Type} (score : String → String → Nat) (query : String)
    (it : List α) (transform : α → String) : List α :=
  to_result_loop (sortByScoreDesc (scored_pairs score query it transform)) 0

/-! ### The `CacheManager.Result` abstraction -/

/-- `CacheManager.Result`: a wrapper holding either already-available data
(`data`, a Python value that may itself be `None`) or a future, modeled by
its eventual outcome (`Except`: a value or a raised exception message). -/
structure Result (T : Type) where
  data : Option T := none
  future : Option (Except String T) := none

/-- `CacheManager.Result.from_data`: wrap an already-known value.  The
Python argument may be `None` (`none` here); it is stored in `data`
unconditionally. -/
def Result.from_data {T : Type} (data : Option T) : Result T :=
  { data := data, future := none }

/-- `CacheManager.Result.result`: return `data` when it is not `None`;
otherwise block on the future and propagate its outcome; otherwise raise. -/
def Result.result {T : Type} (r : Result T) : Except String T :=
  match r.data with
  | some v => Except.ok v
  | none =>
    match r.future with
    | some f => f
    | none =>
      Except.error
        "CacheManager.Result did not have either a data or future member."

/-- The argument a completion callback receives.  The source passes the
underlying `Future` (pending variant) or the `Result` object itself
(immediate variant); the `value` form — the bare resolved value — is what
the specification describes, and is never produced by the code. -/
inductive CallbackArg (T : Type) where
  | value (v : Option T)
  | futureHandle (f : Except String T)
  | resultObject (r : Result T)

/-- `CacheManager.Result.add_done_callback`: when a future is present, `fn`
is registered on it and Python later invokes it exactly once with the future
itself; otherwise `fn` is invoked immediately, exactly once, with `self` —
the `Result` object.  The returned list is the sequence of arguments `fn` is
invoked with. -/
def Result.add_done_callback_calls {T : Type} (r : Result T) :
    List (CallbackArg T) :=
  match r.future with
  | some f => [CallbackArg.futureHandle f]
  | none => [CallbackArg.resultObject r]

/-- Whether `add_done_callback` runs `fn` synchronously at registration
time: it does exactly when there is no future (the immediate variant). -/
def Result.add_done_callback_sync {T : Type} (r : Result T) : Bool :=
  r.future.isNone

/-! ### Facade dispatch (`Singleton.__getattr__`) -/

/-- The internal instance as seen by attribute dispatch: its own attribute
table and the fallback table of its `server` member. -/
structure FacadeInstance (M : Type) where
  ownAttr : String → Option M
  serverAttr : String → Option M

/-- A Python attribute-lookup outcome: `None`, a callable, or an
`AttributeError`. -/
inductive PyAttr (M : Type) where
  | pyNone
  | callable (m : M)
  | attrMissing

/-- `Singleton.__getattr__`: when no internal instance exists the lookup
returns `None`; otherwise the instance's own attribute is preferred and the
`server` attribute is the fallback. -/
def singleton_getattr {M : Type} (inst : Option (FacadeInstance M))
    (name : String) : PyAttr M :=
  match inst with
  | none => PyAttr.pyNone
  | some i =>
    match i.ownAttr name with
    | some m => PyAttr.callable m
    | none =>
      match i.serverAttr name with
      | some m => PyAttr.callable m
      | none => PyAttr.attrMissing

/-- Outcome of invoking a facade operation. -/
inductive CallOutcome (R : Type) where
  | ok (r : R)
  | typeError
  | attributeError
  deriving Repr, DecidableEq

/-- Invoking a facade operation `CacheManager.name(...)`: look the name up
through the metaclass `__getattr__`, then call it; calling the `None`
returned for a missing instance raises `TypeError` in Python. -/
def invoke_facade {M R : Type} (inst : Option (FacadeInstance M))
    (name : String) (call : M → R) : CallOutcome R :=
  match singleton_getattr inst name with
  | PyAttr.pyNone => CallOutcome.typeError
  | PyAttr.callable m => CallOutcome.ok (call m)
  | PyAttr.attrMissing => CallOutcome.attributeError

/-- `CacheManager.reset`: installs a fresh internal instance. -/
def reset {M : Type} (i : FacadeInstance M) : Option (FacadeInstance M) :=
  some i

/-! ### Paginated album lists (`get_album_list`) -/

/-- A deterministic server holding the list `albums`:
`get_album_list2(type_, size=page_size, offset=offset).album` returns the
slice `albums[offset : offset + size]` (albums as ids). -/
def server_page (albums : List Nat) (size offset : Nat) : List Nat :=
  (albums.drop offset).take size

/-- `get_page(offset, page_size=500)` inside `do_get_album_list`: ask the
server (a function from size and offset to a page) for one page. -/
def get_page (server : Nat → Nat → List Nat) (offset : Nat)
    (page_size : Nat := 500) : List Nat :=
  server page_size offset

/-- The `while len(next_page) == 500` loop of `do_get_album_list`.  Note the
loop body calls `get_page(offset)` *before* `offset += 500`, exactly as the
source does.  `fuel` bounds the iteration count; all uses in this
development supply ample fuel. -/
def album_loop (server : Nat → Nat → List Nat) :
    Nat → List Nat → List Nat → Nat → List Nat
  | 0, _, albums, _ => albums
  | fuel + 1, next_page, albums, offset =>
    if next_page.length = 500 then
      album_loop server fuel (get_page server offset)
        (albums ++ get_page server offset) (offset + 500)
    else albums

/-- `do_get_album_list`: page size is 40 for the "random" list type and 500
otherwise; the first page is fetched at offset 0 and the loop continues
while pages come back with exactly 500 items. -/
def do_get_album_list (server : Nat → Nat → List Nat) (type_ : String)
    (fuel : Nat) : List Nat :=
  let page_size := if type_ = "random" then 40 else 500
  let next_page := get_page server 0 page_size
  album_loop server fuel next_page next_page 0

/-- What `get_album_list` returns before any network work: an immediate
`Result` carrying the cached list, or a pending (future-backed) one. -/
inductive AlbumListReturn where
  | immediate (albums : List Nat)
  | pending
  deriving Repr, DecidableEq

/-- `self.cache.get("albums", {}).get(type_, [])`: the cached album list
for one list type, defaulting to the empty list. -/
def albums_cache_lookup (cache : List (String × List Nat))
    (type_ : String) : List Nat :=
  match cache.find? (fun p => p.1 = type_) with
  | some p => p.2
  | none => []

/-- The dispatch at the top of `get_album_list`:
`if len(cache.get("albums", {}).get(type_, [])) > 0 and not force: return
from_data(...)`, otherwise schedule `do_get_album_list` on the executor. -/
def get_album_list_dispatch (cache : List (String × List Nat))
    (type_ : String) (force : Bool) : AlbumListReturn :=
  if 0 < (albums_cache_lookup cache type_).length ∧ force = false then
    AlbumListReturn.immediate (albums_cache_lookup cache type_)
  else AlbumListReturn.pending

/-! ### The v0 → v1 cache migration (`load_cache_info`) -/

/-- Longest leading run of digit characters, with the remainder. -/
def leading_digits : List Char → List Char × List Char
  | [] => ([], [])
  | c :: rest =>
    if c.isDigit then
      let p := leading_digits rest
      (c :: p.1, p.2)
    else ([], c :: rest)

/-- Decimal value of a digit run (`int` applied to a regex group). -/
def digitsToNat (ds : List Char) : Nat :=
  ds.foldl (fun n c => 10 * n + (c.toNat - 48)) 0

/-- `re.match(r"(\d+)_(\d+)", name)` followed by `map(int, match.groups())`:
a prefix match of a digit run, an underscore, and a second digit run. -/
def cover_art_match (name : String) : Option (Nat × Nat) :=
  match leading_digits name.toList with
  | ([], _) => none
  | (d1, rest) =>
    match rest with
    | '_' :: rest2 =>
      match leading_digits rest2 with
      | ([], _) => none
      | (d2, _) => some (digitsToNat d1, digitsToNat d2)
    | _ => none

/-- One iteration of the migration loop over the `cover_art/` directory
(modeled as a listing of file names): a file matching the pattern with
dimension 1000 is renamed — the destination is built from the plain string
literal `"{art_id}"`, which the source passes to `joinpath` without an
f-string prefix, so every such file is moved to the literal name
`"{art_id}"` (`shutil.move` replaces an existing destination); any other
matching file is deleted. -/
def migrate_file (fs : List String) (name : String) : List String :=
  match cover_art_match name with
  | none => fs
  | some (_, dimensions) =>
    if dimensions = 1000 then
      ((fs.erase name).erase "{art_id}") ++ ["{art_id}"]
    else fs.erase name

/-- The v0 → v1 migration body of `load_cache_info`: iterate over the
directory listing taken at the start, updating the file set. -/
def migrate_v0 (listing : List String) : List String :=
  listing.foldl migrate_file listing

/-! ### Sequential semantics of `do_download` (`return_cached_or_download`) -/

/-- Filesystem-and-registry state touched by one `do_download` run, for one
resource path: the `current_downloads` registry, the staging file at
`download_path`, and the final file at `abs_path`. -/
structure DlState where
  current_downloads : List String
  download_file : Option (List Nat)
  cache_file : Option (List Nat)
  deriving Repr, DecidableEq

/-- The non-joined (claimer) branch of `do_download`, run sequentially:
the key is added under the lock; `download_fn` either returns bytes
(written to the staging path and then moved to the cache path) or raises a
`ConnectionError`, in which case the key is discarded, the staging file
does not exist, the move is skipped, and execution falls through to
`return abs_path_str`. -/
def do_download_claimer (abs_path_str : String)
    (fetch : Except Unit (List Nat)) (s : DlState) :
    Except String String × DlState :=
  let s0 : DlState :=
    { s with current_downloads := s.current_downloads.insert abs_path_str }
  match fetch with
  | Except.ok data =>
    let s1 : DlState := { s0 with download_file := some data }
    let s2 : DlState :=
      { s1 with download_file := none, cache_file := some data }
    (Except.ok abs_path_str, s2)
  | Except.error _ =>
    let s1 : DlState :=
      { s0 with
        current_downloads := s0.current_downloads.erase abs_path_str }
    (Except.ok abs_path_str, s1)

/-- The value a joined caller returns once its busy loop observes the key
gone from `current_downloads`: the waiter branch of `do_download` falls
through to `return abs_path_str` with no existence check and no error,
whatever the cache file's state (passed here only to record that it is not
consulted). -/
def do_download_waiter_return (abs_path_str : String)
    (_cache_file : Option (List Nat)) : Except String String :=
  Except.ok abs_path_str

/-- `after_download`: the future's done-callback discards the path from
`current_downloads`. -/
def after_download (path : String) (s : DlState) : DlState :=
  { s with current_downloads := s.current_downloads.erase path }

/-! ### Interleaving semantics of concurrent `do_download` runs -/

/-- Program counter of one caller's `do_download` execution (for one fixed
resource path), including the `after_download` done-callback of its
`Result`'s future. -/
inductive DlPc where
  | start
  | waiting
  | fetching
  | publishing
  | errDiscard
  | cbPending
  | done
  deriving Repr, DecidableEq

/-- Shared state for one resource path.  `owner = some i` means the path's
key is in `current_downloads` and caller `i`'s claim put it there (ghost
refinement of set membership); `stale` is a ghost flag recording that some
discard removed a key claimed by a *different* caller. -/
structure DlSys where
  owner : Option Nat
  stale : Bool
  pcs : Nat → DlPc

/-- The ghost `stale` flag after caller `i` performs a
`current_downloads.discard` of the key: it becomes set when the key being
removed was claimed by a different caller. -/
def staleAfterDiscard (owner : Option Nat) (i : Nat) (stale : Bool) : Bool :=
  match owner with
  | some j => stale || decide (j ≠ i)
  | none => stale

/-- Initial state: `n` callers about to run `do_download` (their existence
checks failed or `force` was set), key not in the registry. -/
def DlSys.init (n : Nat) : DlSys :=
  { owner := none
    stale := false
    pcs := fun i => if i < n then DlPc.start else DlPc.done }

/-- One interleaved step of the concurrent `do_download` protocol.  The
locked check-then-add block is a single atomic step (`join`/`claim`); the
busy loop reads the registry (`waitSpin`/`waitExit`); `download_fn` either
succeeds (`fetchOk`, then `publish` moves the file and returns) or raises
`ConnectionError` (`fetchErr`, then `errClean` discards the key under the
lock and returns); `callback` is the future's `after_download`, which
discards the key unconditionally. -/
inductive DlStep : DlSys → DlSys → Prop where
  | join (s : DlSys) (i : Nat) (hpc : s.pcs i = DlPc.start)
      (ho : s.owner.isSome = true) :
      DlStep s { s with pcs := Function.update s.pcs i DlPc.waiting }
  | claim (s : DlSys) (i : Nat) (hpc : s.pcs i = DlPc.start)
      (ho : s.owner = none) :
      DlStep s
        { s with owner := some i
                 pcs := Function.update s.pcs i DlPc.fetching }
  | waitSpin (s : DlSys) (i : Nat) (hpc : s.pcs i = DlPc.waiting)
      (ho : s.owner.isSome = true) :
      DlStep s s
  | waitExit (s : DlSys) (i : Nat) (hpc : s.pcs i = DlPc.waiting)
      (ho : s.owner = none) :
      DlStep s { s with pcs := Function.update s.pcs i DlPc.cbPending }
  | fetchOk (s : DlSys) (i : Nat) (hpc : s.pcs i = DlPc.fetching) :
      DlStep s { s with pcs := Function.update s.pcs i DlPc.publishing }
  | fetchErr (s : DlSys) (i : Nat) (hpc : s.pcs i = DlPc.fetching) :
      DlStep s { s with pcs := Function.update s.pcs i DlPc.errDiscard }
  | errClean (s : DlSys) (i : Nat) (hpc : s.pcs i = DlPc.errDiscard) :
      DlStep s
        { s with owner := none
                 stale := staleAfterDiscard s.owner i s.stale
                 pcs := Function.update s.pcs i DlPc.cbPending }
  | publish (s : DlSys) (i : Nat) (hpc : s.pcs i = DlPc.publishing) :
      DlStep s { s with pcs := Function.update s.pcs i DlPc.cbPending }
  | callback (s : DlSys) (i : Nat) (hpc : s.pcs i = DlPc.cbPending) :
      DlStep s
        { s with owner := none
                 stale := staleAfterDiscard s.owner i s.stale
                 pcs := Function.update s.pcs i DlPc.done }

/-- Reachability of the concurrent download protocol from `n` callers. -/
def DlReachable (n : Nat) (s : DlSys) : Prop :=
  Relation.ReflTransGen DlStep (DlSys.init n) s

/-- Protocol invariant: either a stale discard has happened, or every
caller currently inside the claimed section (fetching or publishing) is the
registry owner. -/
def DlInv (s : DlSys) : Prop :=
  s.stale = true ∨
    ∀ i : Nat, (s.pcs i = DlPc.fetching ∨ s.pcs i = DlPc.publishing) →
      s.owner = some i

/-- Intermediate states of a concrete 4-caller interleaving.  Caller 0
downloads and completes; caller 1 joins, returns after the key is removed,
and its late `after_download` then erases caller 2's fresh claim; caller 3
claims again while caller 2 is still fetching. -/
def dlS0 : DlSys := DlSys.init 4

/-- Caller 0 claims the key. -/
def dlS1 : DlSys :=
  { dlS0 with owner := some 0
              pcs := Function.update dlS0.pcs 0 DlPc.fetching }

/-- Caller 1 joins the in-flight download. -/
def dlS2 : DlSys :=
  { dlS1 with pcs := Function.update dlS1.pcs 1 DlPc.waiting }

/-- Caller 0's fetch succeeds. -/
def dlS3 : DlSys :=
  { dlS2 with pcs := Function.update dlS2.pcs 0 DlPc.publishing }

/-- Caller 0 publishes the file and returns. -/
def dlS4 : DlSys :=
  { dlS3 with pcs := Function.update dlS3.pcs 0 DlPc.cbPending }

/-- Caller 0's `after_download` removes its own key. -/
def dlS5 : DlSys :=
  { dlS4 with owner := none
              stale := staleAfterDiscard dlS4.owner 0 dlS4.stale
              pcs := Function.update dlS4.pcs 0 DlPc.done }

/-- Caller 1's busy loop sees the key gone and returns. -/
def dlS6 : DlSys :=
  { dlS5 with pcs := Function.update dlS5.pcs 1 DlPc.cbPending }

/-- Caller 2 claims the key and starts a new download. -/
def dlS7 : DlSys :=
  { dlS6 with owner := some 2
              pcs := Function.update dlS6.pcs 2 DlPc.fetching }

/-- Caller 1's late `after_download` discards caller 2's claim. -/
def dlS8 : DlSys :=
  { dlS7 with owner := none
              stale := staleAfterDiscard dlS7.owner 1 dlS7.stale
              pcs := Function.update dlS7.pcs 1 DlPc.done }

/-- Caller 3 finds the key absent and claims, while 2 is still fetching. -/
def dlS9 : DlSys :=
  { dlS8 with owner := some 3
              pcs := Function.update dlS8.pcs 3 DlPc.fetching }

/-! ### Fuzzy search callback discipline (`search` / `do_search`) -/

/-- One invocation of `search_callback`: the payload and the `final` flag. -/
structure SearchEvent (σ : Type) where
  payload : σ
  final : Bool
  deriving Repr, DecidableEq

/-- The sequence of `search_callback` invocations `do_search` performs.
`c1` and `c2` are the values of the `cancelled` flag observed at the two
post-delay checks; `localResult` is the aggregate built from the caches;
`remote` is the outcome of `server.search3` and `merge` adds its results to
the aggregate.  On a remote failure the `except` clause returns, but the
`finally` clause still fires the final callback, carrying the local-only
aggregate. -/
def do_search_events {σ ρ : Type} (localResult : σ) (merge : σ → ρ → σ)
    (c1 c2 : Bool) (remote : Except String ρ) : List (SearchEvent σ) :=
  if c1 then []
  else
    { payload := localResult, final := false } ::
      (if c2 then []
       else
         match remote with
         | Except.ok r => [{ payload := merge localResult r, final := true }]
         | Except.error _ => [{ payload := localResult, final := true }])

/-- What `search` itself returns to its caller. -/
inductive SearchReturn (T : Type) where
  | immediate (r : Result T)
  | pending

/-- The `Result` returned by `search`: the empty query fires the callback
synchronously and returns `from_data(None)`; any other query schedules
`do_search` and returns a future-backed `Result`. -/
def search_return (T : Type) (query : String) : SearchReturn T :=
  if query = "" then SearchReturn.immediate (Result.from_data none)
  else SearchReturn.pending

/-! ## Theorems -/

/-- C8: invoking any facade operation while no internal instance exists
(before `reset` has been called) fails: `Singleton.__getattr__` yields
`None` and calling it raises `TypeError`, so no invocation before `reset`
ever returns a value. -/
theorem facade_before_reset_fails {M R : Type} (name : String)
    (call : M → R) :
    invoke_facade (none : Option (FacadeInstance M)) name call =
      CallOutcome.typeError :=
  rfl

/-- C9: a `Result` built by `from_data(v)` returns `v` from `result()` when
`v` is not `None`, and raises when `v` is `None` — the immediate variant is
detected by `data` being non-`None` — as happens for the `Result` that
`search` returns on an empty query, which is exactly `from_data(None)`. -/
theorem from_data_result_raises_on_none {T : Type} (v : T) :
    (Result.from_data (some v)).result = Except.ok v ∧
    ((Result.from_data (none : Option T)).result).isOk = false ∧
    search_return T "" = SearchReturn.immediate (Result.from_data none) :=
  ⟨rfl, rfl, rfl⟩

/-- C7 counterexample: for the immediate `Result` built by `from_data(5)`,
`add_done_callback` invokes `fn` with the `Result` object itself
(`fn(self)`), not with the resolved value `5` as the claim states. -/
theorem add_done_callback_value_counterexample :
    Result.add_done_callback_calls (Result.from_data (some 5)) ≠
      [CallbackArg.value (some 5)] := by
  simp [Result.add_done_callback_calls, Result.from_data]

/-- C7 (amended): registering `fn` causes it to be invoked exactly once,
and for an already-resolved (immediate) `Result` it runs synchronously at
registration time — but its argument is the `Result` object itself (from
which the value is read), not the bare resolved value; for a pending
`Result` it is registered on the future and receives the future. -/
theorem add_done_callback_passes_object {T : Type} (v : Option T)
    (f : Except String T) :
    Result.add_done_callback_calls (Result.from_data v) =
      [CallbackArg.resultObject (Result.from_data v)] ∧
    Result.add_done_callback_sync (Result.from_data v) = true ∧
    Result.add_done_callback_calls { data := none, future := some f } =
      [CallbackArg.futureHandle f] ∧
    Result.add_done_callback_sync { data := none, future := some f } =
      false :=
  ⟨rfl, rfl, rfl, rfl⟩

/-- C6: for a non-empty query, a cancellation flag observed set at the
first post-delay check suppresses both callbacks; observed set at the
second check it suppresses the final callback; and an uncancelled search
fires exactly one `final = true` callback whatever the remote outcome, the
failure case carrying the local-only aggregate. -/
theorem search_callback_discipline {σ ρ : Type} (localResult : σ)
    (merge : σ → ρ → σ) (c2 : Bool) (remote : Except String ρ) (e : String)
    (rr : ρ) :
    do_search_events localResult merge true c2 remote = [] ∧
    do_search_events localResult merge false true remote =
      [{ payload := localResult, final := false }] ∧
    ((do_search_events localResult merge false false remote).filter
        (fun ev => ev.final)).length = 1 ∧
    do_search_events localResult merge false false (Except.error e) =
      [{ payload := localResult, final := false },
       { payload := localResult, final := true }] ∧
    do_search_events localResult merge false false (Except.ok rr) =
      [{ payload := localResult, final := false },
       { payload := merge localResult rr, final := true }] := by
  refine ⟨rfl, rfl, ?_, rfl, rfl⟩
  cases remote <;> rfl

/-- C10: `get_album_list` returns an immediate `Result` exactly when the
cached list for the type is non-empty and `force` is false; an empty cached
list is a miss (a new fetch is scheduled) even without `force`. -/
theorem album_list_empty_cache_is_miss (cache : List (String × List Nat))
    (type_ : String) (force : Bool) :
    get_album_list_dispatch cache type_ force =
      (if albums_cache_lookup cache type_ ≠ [] ∧ force = false
       then AlbumListReturn.immediate (albums_cache_lookup cache type_)
       else AlbumListReturn.pending) := by
  unfold get_album_list_dispatch
  by_cases h1 : albums_cache_lookup cache type_ = [] <;>
    by_cases h2 : force = false <;>
      simp [h1, h2, List.length_pos]

/-- C4: on the version-0 snapshot whose `cover_art/` directory holds
`"123_1000"` and `"123_300"`, the migration deletes `"123_300"` but renames
`"123_1000"` to the literal file name `"{art_id}"` (the source lacks the
f-string prefix on the destination), not to `"123"` as claimed; re-running
the migration on the result changes nothing. -/
theorem migration_renames_to_literal_name :
    migrate_v0 ["123_1000", "123_300"] = ["{art_id}"] ∧
    migrate_v0 ["{art_id}"] = ["{art_id}"] ∧
    migrate_v0 ["123"] = ["123"] := by
  refine ⟨rfl, rfl, rfl⟩

set_option maxRecDepth 100000 in
/-- C3: against a server holding exactly 500 albums, `do_get_album_list`
fetches the offset-0 page, enters the loop, and fetches offset 0 *again*
(the loop body reads `offset` before `offset += 500`), so the aggregate has
1000 items and album 0 is fetched twice — refuting that no item is fetched
twice and that the aggregate is the plain page concatenation at distinct
offsets. -/
theorem album_list_first_page_duplicated :
    do_get_album_list (server_page (List.range 500)) "alphabeticalByName" 5
      = List.range 500 ++ List.range 500 ∧
    (do_get_album_list (server_page (List.range 500)) "alphabeticalByName"
        5).length = 1000 ∧
    (do_get_album_list (server_page (List.range 500)) "alphabeticalByName"
        5).count 0 = 2 := by
  refine ⟨by rfl, by rfl, by rfl⟩

/-- C2 counterexample: when `download_fn` raises a `ConnectionError`,
`do_download` swallows it — the originating caller's run returns
`Except.ok` with the cache path (no failure propagates, and no cache file
exists), and a waiter that observes the key removed also returns the path
rather than a failure. -/
theorem download_error_swallowed_counterexample :
    (do_download_claimer "p" (Except.error ()) ⟨[], none, none⟩).1 =
      Except.ok "p" ∧
    ((do_download_claimer "p" (Except.error ()) ⟨[], none, none⟩).1).isOk =
      true ∧
    (do_download_claimer "p" (Except.error ()) ⟨[], none, none⟩).2.cache_file
      = none ∧
    do_download_waiter_return "p" none = Except.ok "p" :=
  ⟨rfl, rfl, rfl, rfl⟩

/-- C2 (amended): on a transport (connection) error the key is removed from
the download registry, but the failure does *not* propagate: the exception
is swallowed and the originating `do_download` returns the cache path
string with no cache file produced, and a waiter that discovers the key
removed returns the path unconditionally, without an existence check. -/
theorem download_error_swallowed (p : String) (s : DlState)
    (h : p ∉ s.current_downloads) :
    (do_download_claimer p (Except.error ()) s).1 = Except.ok p ∧
    p ∉ (do_download_claimer p (Except.error ()) s).2.current_downloads ∧
    (do_download_claimer p (Except.error ()) s).2.cache_file =
      s.cache_file ∧
    do_download_waiter_return p none = Except.ok p := by
  refine ⟨rfl, ?_, rfl, rfl⟩
  simp [do_download_claimer, List.insert_of_not_mem h]
  exact h

/-- Witness for the amended C2 theorem at a concrete state. -/
theorem download_error_swallowed_witness :
    "p" ∉ ([] : List String) ∧
    (do_download_claimer "p" (Except.error ()) ⟨[], none, none⟩).1 =
      Except.ok "p" := by
  have h : "p" ∉ ([] : List String) := by simp
  exact ⟨h, (download_error_swallowed "p" ⟨[], none, none⟩ h).1⟩

/-- The descending sort is a permutation of its input. -/
theorem sortByScoreDesc_perm {α : Type} (l : List (Nat × α)) :
    List.Perm (sortByScoreDesc l) l :=
  List.mergeSort_perm l _

/-- The descending sort is sorted: scores are non-increasing. -/
theorem sortByScoreDesc_sorted {α : Type} (l : List (Nat × α)) :
    (sortByScoreDesc l).Pairwise (fun a b => b.1 ≤ a.1) := by
  have h : (sortByScoreDesc l).Pairwise
      (fun a b : Nat × α => Nat.ble b.1 a.1 = true) := by
    unfold sortByScoreDesc
    apply List.sorted_mergeSort
    · intro a b c hab hbc
      simp only [Nat.ble_eq] at hab hbc ⊢
      omega
    · intro a b
      rw [Bool.or_eq_true]
      simp only [Nat.ble_eq]
      omega
  exact h.imp (fun hab => Nat.le_of_ble_eq_true hab)

/-- The `_to_result` loop never keeps more than `20 - k` further items. -/
theorem to_result_loop_length {α : Type} :
    ∀ (l : List (Nat × α)) (k : Nat), (to_result_loop l k).length ≤ 20 - k
  | [], k => by simp [to_result_loop]
  | (r, x) :: rest, k => by
    by_cases h : 60 < r ∧ k < 20
    · have ih := to_result_loop_length rest (k + 1)
      simp only [to_result_loop, if_pos h, List.length_cons]
      omega
    · simp [to_result_loop, if_neg h]

/-- The `_to_result` loop keeps a head segment of its input's items. -/
theorem to_result_loop_append {α : Type} :
    ∀ (l : List (Nat × α)) (k : Nat),
      ∃ t, l.map Prod.snd = to_result_loop l k ++ t
  | [], _ => ⟨[], by simp [to_result_loop]⟩
  | (r, x) :: rest, k => by
    by_cases h : 60 < r ∧ k < 20
    · obtain ⟨t, ht⟩ := to_result_loop_append rest (k + 1)
      refine ⟨t, ?_⟩
      simp only [to_result_loop, if_pos h, List.map_cons, ht,
        List.cons_append]
    · exact ⟨x :: rest.map Prod.snd, by simp [to_result_loop, if_neg h]⟩

/-- Every item the `_to_result` loop keeps was paired with a score above
60. -/
theorem to_result_loop_mem {α : Type} :
    ∀ (l : List (Nat × α)) (k : Nat) (x : α),
      x ∈ to_result_loop l k → ∃ r, (r, x) ∈ l ∧ 60 < r
  | [], _, x => by simp [to_result_loop]
  | (r, y) :: rest, k, x => by
    by_cases h : 60 < r ∧ k < 20
    · simp only [to_result_loop, if_pos h, List.mem_cons]
      rintro (rfl | hx)
      · exact ⟨r, Or.inl rfl, h.1⟩
      · obtain ⟨r', hr', hgt⟩ := to_result_loop_mem rest (k + 1) x hx
        exact ⟨r', Or.inr hr', hgt⟩
    · simp [to_result_loop, if_neg h]

/-- C5: for every query and candidate set, the ranked view computed by
`SearchResult._to_result` has at most 20 items, every returned item's
similarity score against the query is strictly above 60, and the returned
items are the front segment of the score-descending sorted candidate
list. -/
theorem search_ranking_bounded {α : Type} (score : String → String → Nat)
    (query : String) (it : List α) (transform : α → String) :
    (to_result score query it transform).length ≤ 20 ∧
    (∀ x ∈ to_result score query it transform,
      60 < score query (transform x)) ∧
    (∃ t, (sortByScoreDesc (scored_pairs score query it transform)).map
        Prod.snd = to_result score query it transform ++ t) ∧
    (sortByScoreDesc (scored_pairs score query it transform)).Pairwise
      (fun a b => b.1 ≤ a.1) := by
  refine ⟨?_, ?_, to_result_loop_append _ 0, sortByScoreDesc_sorted _⟩
  · have h := to_result_loop_length
      (sortByScoreDesc (scored_pairs score query it transform)) 0
    simpa [to_result] using h
  · intro x hx
    obtain ⟨r, hr, hgt⟩ := to_result_loop_mem _ 0 x hx
    have hr' : (r, x) ∈ scored_pairs score query it transform :=
      (sortByScoreDesc_perm _).mem_iff.mp hr
    obtain ⟨y, hy, hyx⟩ := List.mem_map.mp hr'
    obtain ⟨h1, h2⟩ := Prod.mk.injEq _ _ _ _ ▸ hyx
    subst h2
    rw [← h1] at hgt
    exact hgt

/-- A discard that happens when `stale` is already set keeps it set. -/
theorem staleAfterDiscard_true (o : Option Nat) (i : Nat) :
    staleAfterDiscard o i true = true := by
  cases o <;> simp [staleAfterDiscard]

/-- The protocol invariant holds initially. -/
theorem dlInv_init (n : Nat) : DlInv (DlSys.init n) := by
  refine Or.inr fun i hi => ?_
  have hi' : (if i < n then DlPc.start else DlPc.done) = DlPc.fetching ∨
      (if i < n then DlPc.start else DlPc.done) = DlPc.publishing := hi
  split at hi' <;> simp_all

/-- Setting caller `i`'s program counter to a value outside the claimed
section preserves the invariant when the owner is unchanged. -/
theorem dlInv_update_nonsection (s : DlSys) (i : Nat) (pc : DlPc)
    (hpc1 : pc ≠ DlPc.fetching) (hpc2 : pc ≠ DlPc.publishing)
    (hs : DlInv s) :
    DlInv { s with pcs := Function.update s.pcs i pc } := by
  rcases hs with hstale | hinv
  · exact Or.inl hstale
  · refine Or.inr fun j hj => ?_
    have hj' : Function.update s.pcs i pc j = DlPc.fetching ∨
        Function.update s.pcs i pc j = DlPc.publishing := hj
    show s.owner = some j
    rcases eq_or_ne j i with rfl | hne
    · rw [Function.update_same] at hj'
      rcases hj' with h | h
      · exact absurd h hpc1
      · exact absurd h hpc2
    · rw [Function.update_noteq hne] at hj'
      exact hinv j hj'

/-- A discard step (by `errClean` or `callback`) preserves the invariant:
either the discarder owned the key, or the `stale` flag becomes set. -/
theorem dlInv_discard (s : DlSys) (i : Nat) (pc : DlPc)
    (hpc1 : pc ≠ DlPc.fetching) (hpc2 : pc ≠ DlPc.publishing)
    (hs : DlInv s) :
    DlInv { s with owner := none
                   stale := staleAfterDiscard s.owner i s.stale
                   pcs := Function.update s.pcs i pc } := by
  rcases hs with hstale | hinv
  · refine Or.inl ?_
    show staleAfterDiscard s.owner i s.stale = true
    rw [hstale]
    exact staleAfterDiscard_true _ _
  · rcases ho : s.owner with _ | m
    · refine Or.inr fun j hj => ?_
      have hj' : Function.update s.pcs i pc j = DlPc.fetching ∨
          Function.update s.pcs i pc j = DlPc.publishing := hj
      rcases eq_or_ne j i with rfl | hne
      · rw [Function.update_same] at hj'
        rcases hj' with h | h
        · exact absurd h hpc1
        · exact absurd h hpc2
      · rw [Function.update_noteq hne] at hj'
        have := hinv j hj'
        rw [ho] at this
        simp at this
    · rcases eq_or_ne m i with rfl | hmi
      · refine Or.inr fun j hj => ?_
        have hj' : Function.update s.pcs m pc j = DlPc.fetching ∨
            Function.update s.pcs m pc j = DlPc.publishing := hj
        rcases eq_or_ne j m with rfl | hne
        · rw [Function.update_same] at hj'
          rcases hj' with h | h
          · exact absurd h hpc1
          · exact absurd h hpc2
        · rw [Function.update_noteq hne] at hj'
          have := hinv j hj'
          rw [ho] at this
          have : m = j := Option.some.inj this
          exact absurd this.symm hne
      · refine Or.inl ?_
        show staleAfterDiscard (some m) i s.stale = true
        simp [staleAfterDiscard, hmi]

/-- Every step of the download protocol preserves the invariant. -/
theorem dlInv_step {s t : DlSys} (hst : DlStep s t) (hs : DlInv s) :
    DlInv t := by
  cases hst with
  | join i hpc ho =>
    exact dlInv_update_nonsection s i DlPc.waiting (by simp) (by simp) hs
  | claim i hpc ho =>
    rcases hs with hstale | hinv
    · exact Or.inl hstale
    · refine Or.inr fun j hj => ?_
      have hj' : Function.update s.pcs i DlPc.fetching j = DlPc.fetching ∨
          Function.update s.pcs i DlPc.fetching j = DlPc.publishing := hj
      show (some i : Option Nat) = some j
      rcases eq_or_ne j i with rfl | hne
      · rfl
      · rw [Function.update_noteq hne] at hj'
        have := hinv j hj'
        rw [ho] at this
        simp at this
  | waitSpin i hpc ho => exact hs
  | waitExit i hpc ho =>
    exact dlInv_update_nonsection s i DlPc.cbPending (by simp) (by simp) hs
  | fetchOk i hpc =>
    rcases hs with hstale | hinv
    · exact Or.inl hstale
    · refine Or.inr fun j hj => ?_
      have hj' : Function.update s.pcs i DlPc.publishing j = DlPc.fetching ∨
          Function.update s.pcs i DlPc.publishing j = DlPc.publishing := hj
      show s.owner = some j
      rcases eq_or_ne j i with rfl | hne
      · exact hinv j (Or.inl hpc)
      · rw [Function.update_noteq hne] at hj'
        exact hinv j hj'
  | fetchErr i hpc =>
    exact dlInv_update_nonsection s i DlPc.errDiscard (by simp) (by simp) hs
  | errClean i hpc =>
    exact dlInv_discard s i DlPc.cbPending (by simp) (by simp) hs
  | publish i hpc =>
    exact dlInv_update_nonsection s i DlPc.cbPending (by simp) (by simp) hs
  | callback i hpc =>
    exact dlInv_discard s i DlPc.done (by simp) (by simp) hs

/-- The invariant holds in every reachable state. -/
theorem dlInv_reachable {n : Nat} {s : DlSys} (h : DlReachable n s) :
    DlInv s := by
  have h' : Relation.ReflTransGen DlStep (DlSys.init n) s := h
  clear h
  induction h' with
  | refl => exact dlInv_init n
  | tail _ hbc ih => exact dlInv_step hbc ih

/-- C1 (amended): among concurrent `do_download` runs for one path the
locked check-then-add is atomic, so as long as no completion callback has
removed a registry key that a *different* caller's claim put there
(`stale = false`), at most one physical download is in flight at a time:
any two callers observed mid-fetch are the same caller.  (Every caller
that returns does observe the same final cache path, since both branches
of `do_download` return the single `abs_path_str`.)  The unconditional
discard in `after_download` can violate this, as the counterexample
shows. -/
theorem download_mutex_stale_free (n : Nat) (s : DlSys)
    (h : DlReachable n s) (hstale : s.stale = false) (i j : Nat)
    (hi : s.pcs i = DlPc.fetching) (hj : s.pcs j = DlPc.fetching) :
    i = j := by
  rcases dlInv_reachable h with h1 | h2
  · rw [hstale] at h1
    cases h1
  · have hoi := h2 i (Or.inl hi)
    have hoj := h2 j (Or.inl hj)
    rw [hoi] at hoj
    exact Option.some.inj hoj

/-- C1 counterexample: a reachable interleaving of four callers of
`return_cached_or_download` for one path in which two physical downloads
are in flight simultaneously.  Caller 0 downloads, returns and cleans up;
caller 1, which had joined, returns after the key disappears, but its own
`after_download` callback then discards the key just claimed by caller 2;
caller 3 therefore finds the key absent and claims it while caller 2 is
still fetching — callers 2 and 3 are both mid-fetch in the final state. -/
theorem download_mutex_counterexample :
    DlReachable 4 dlS9 ∧ dlS9.pcs 2 = DlPc.fetching ∧
    dlS9.pcs 3 = DlPc.fetching ∧ (2 : Nat) ≠ 3 := by
  refine ⟨?_, rfl, rfl, by decide⟩
  have t1 : DlStep dlS0 dlS1 := DlStep.claim dlS0 0 rfl rfl
  have t2 : DlStep dlS1 dlS2 := DlStep.join dlS1 1 rfl rfl
  have t3 : DlStep dlS2 dlS3 := DlStep.fetchOk dlS2 0 rfl
  have t4 : DlStep dlS3 dlS4 := DlStep.publish dlS3 0 rfl
  have t5 : DlStep dlS4 dlS5 := DlStep.callback dlS4 0 rfl
  have t6 : DlStep dlS5 dlS6 := DlStep.waitExit dlS5 1 rfl rfl
  have t7 : DlStep dlS6 dlS7 := DlStep.claim dlS6 2 rfl rfl
  have t8 : DlStep dlS7 dlS8 := DlStep.callback dlS7 1 rfl
  have t9 : DlStep dlS8 dlS9 := DlStep.claim dlS8 3 rfl rfl
  exact ((((((((Relation.ReflTransGen.refl.tail t1).tail t2).tail
    t3).tail t4).tail t5).tail t6).tail t7).tail t8).tail t9

/-- Witness for the amended C1 theorem at a concrete reachable state. -/
theorem download_mutex_stale_free_witness :
    DlReachable 4 dlS1 ∧ dlS1.stale = false ∧ (0 : Nat) = 0 := by
  have t : DlReachable 4 dlS1 :=
    Relation.ReflTransGen.refl.tail (DlStep.claim dlS0 0 rfl rfl)
  exact ⟨t, rfl, download_mutex_stale_free 4 dlS1 t rfl 0 0 rfl rfl⟩

end Sublime
